import Mathlib

/-!
Shallow embedding of the pyglmnet example scripts
(`examples/plot_glmnet.py` and `examples/plot_poisson.py`) over the reals,
together with theorems settling the specification claims about them.

Vectors are `List ℝ`; numpy reductions (`np.linalg.norm`, `np.dot`,
`np.logspace`) are translated pointwise from their documented semantics.
-/

namespace PyGlmnet

/-- The numpy machine epsilon `np.spacing(1)`: the gap between 1.0 and the next IEEE-754 double,
i.e. `2⁻⁵²`. Used as the stabilizing epsilon inside the softplus log. -/
noncomputable def npSpacing1 : ℝ := 1 / 2 ^ 52

/-- Function `qu` from `plot_glmnet.py` lines 72-74: the stabilized softplus
nonlinearity `log(1 + eps + exp(z))` with `eps = np.spacing(1)`. -/
noncomputable def qu (z : ℝ) : ℝ := Real.log (1 + npSpacing1 + Real.exp z)

/-- Inner product `np.dot(x, beta)` for 1-D arguments: the inner product. -/
def dot (x beta : List ℝ) : ℝ := (List.zipWith (· * ·) x beta).sum

/-- Function `lmb` from `plot_glmnet.py` lines 76-79: the conditional intensity,
computing `log(1 + eps + exp(beta0 + np.dot(x, beta)))` for a design row. -/
noncomputable def lmb (beta0 : ℝ) (beta x : List ℝ) : ℝ :=
  Real.log (1 + npSpacing1 + Real.exp (beta0 + dot x beta))

/-- Function `lmb` applied to a design matrix: `np.dot(X, beta)` yields one linear
predictor per row, and the log/exp are broadcast elementwise. -/
noncomputable def lmbMat (beta0 : ℝ) (beta : List ℝ) (X : List (List ℝ)) :
    List ℝ :=
  X.map (fun row => Real.log (1 + npSpacing1 + Real.exp (beta0 + dot row beta)))

/-- The L1 norm `np.linalg.norm(beta, 1)`: the sum of absolute values. -/
def normL1 (beta : List ℝ) : ℝ := (beta.map (fun b => |b|)).sum

/-- The L2 norm `np.linalg.norm(beta, 2)`: the Euclidean norm, the square root of the
sum of squares. -/
noncomputable def normL2 (beta : List ℝ) : ℝ :=
  Real.sqrt ((beta.map (fun b => b ^ 2)).sum)

/-- Function `penalty` from `plot_glmnet.py` lines 116-119:
`0.5 * (1 - alpha) * np.linalg.norm(beta, 2) + alpha * np.linalg.norm(beta, 1)`.
Note the L2 norm is NOT squared in the source. -/
noncomputable def penalty (alpha : ℝ) (beta : List ℝ) : ℝ :=
  0.5 * (1 - alpha) * normL2 beta + alpha * normL1 beta

/-- The spec's elastic-net formula `(1−α)·½‖β‖₂² + α‖β‖₁`, stated with the
SQUARED Euclidean norm, for comparison against the source's `penalty`. -/
noncomputable def penaltySpec (alpha : ℝ) (beta : List ℝ) : ℝ :=
  (1 - alpha) * (1 / 2) * normL2 beta ^ 2 + alpha * normL1 beta

/-- The penalty as seen from the full coefficient vector `(beta0, beta)`:
the source passes only `beta` to `penalty`, never the intercept. -/
noncomputable def penaltyOnCoefs (alpha : ℝ) (_beta0 : ℝ) (beta : List ℝ) :
    ℝ :=
  penalty alpha beta

/-- Model of `np.logspace(start, stop, num, base)`: `num` samples of
`base ** (start + i * (stop - start) / (num - 1))` for `i = 0, …, num-1`. -/
noncomputable def logspace (start stop : ℝ) (num : ℕ) (base : ℝ) : List ℝ :=
  (List.range num).map
    (fun i => base ^ (start + (i : ℝ) * ((stop - start) / ((num : ℝ) - 1))))

/-- Array `reg_lambda` from `plot_poisson.py` line 38:
`np.logspace(np.log(0.5), np.log(0.01), 10, base=np.exp(1))`. -/
noncomputable def reg_lambda : List ℝ :=
  logspace (Real.log 0.5) (Real.log 0.01) 10 (Real.exp 1)

/-- The argument of the log inside `qu` is strictly greater than 1. -/
lemma one_lt_qu_arg (z : ℝ) : 1 < 1 + npSpacing1 + Real.exp z := by
  have h1 : (0:ℝ) < npSpacing1 := by unfold npSpacing1; positivity
  have h2 := Real.exp_pos z
  linarith

/-- The L1 norm is nonnegative. -/
lemma normL1_nonneg (beta : List ℝ) : 0 ≤ normL1 beta := by
  unfold normL1
  apply List.sum_nonneg
  intro x hx
  obtain ⟨b, _, rfl⟩ := List.mem_map.mp hx
  exact abs_nonneg b

/-- The L2 norm is nonnegative. -/
lemma normL2_nonneg (beta : List ℝ) : 0 ≤ normL2 beta :=
  Real.sqrt_nonneg _

/-- The stabilizing epsilon is strictly positive. -/
lemma npSpacing1_pos : (0:ℝ) < npSpacing1 := by
  unfold npSpacing1; positivity

/-- C2: for every real `z`, the Poisson mean function `qu z` is strictly
positive, and `qu` is strictly monotonically increasing: `z1 < z2` implies
`qu z1 < qu z2`. -/
theorem qu_pos_and_strictMono (z z1 z2 : ℝ) (h : z1 < z2) :
    0 < qu z ∧ qu z1 < qu z2 := by
  constructor
  · exact Real.log_pos (one_lt_qu_arg z)
  · apply Real.log_lt_log
    · exact lt_trans one_pos (one_lt_qu_arg z1)
    · have := Real.exp_lt_exp.mpr h
      linarith

/-- Witness for C2 at `z = 0`, `z1 = 0`, `z2 = 1`. -/
theorem qu_pos_and_strictMono_witness : 0 < qu 0 ∧ qu 0 < qu 1 :=
  qu_pos_and_strictMono 0 0 1 (by norm_num)

/-- C10: the epsilon-stabilized softplus strictly dominates the identity:
for every real `z`, `z < qu z`. -/
theorem qu_gt_id (z : ℝ) : z < qu z := by
  have h1 : Real.exp z < 1 + npSpacing1 + Real.exp z := by
    have := npSpacing1_pos
    linarith
  calc z = Real.log (Real.exp z) := (Real.log_exp z).symm
    _ < Real.log (1 + npSpacing1 + Real.exp z) :=
        Real.log_lt_log (Real.exp_pos z) h1
    _ = qu z := rfl

/-- C3: at the lasso extreme `alpha = 1` the L2 component contributes
nothing: `penalty 1 beta` equals the L1 norm of `beta` exactly. -/
theorem penalty_one_eq_normL1 (beta : List ℝ) :
    penalty 1 beta = normL1 beta := by
  unfold penalty; ring

/-- C8: the elastic-net penalty never regularizes the intercept: its value
is determined by `alpha` and the penalized weight vector `beta` alone, and
is unchanged for every choice of the intercept `beta0`. -/
theorem penalty_ignores_intercept (alpha beta0 beta0' : ℝ) (beta : List ℝ) :
    penaltyOnCoefs alpha beta0 beta = penaltyOnCoefs alpha beta0' beta ∧
      penaltyOnCoefs alpha beta0 beta =
        0.5 * (1 - alpha) * normL2 beta + alpha * normL1 beta :=
  ⟨rfl, rfl⟩

/-- The L1 norm of the all-zero vector is zero. -/
lemma normL1_replicate_zero (p : ℕ) : normL1 (List.replicate p 0) = 0 := by
  simp [normL1]

/-- The L2 norm of the all-zero vector is zero. -/
lemma normL2_replicate_zero (p : ℕ) : normL2 (List.replicate p 0) = 0 := by
  simp [normL2]

/-- C9: for every `alpha` in `[0, 1]` and every `beta`,
`penalty alpha beta ≥ 0`, and the penalty vanishes on the zero vector. -/
theorem penalty_nonneg_and_zero_at_zero (alpha : ℝ) (beta : List ℝ) (p : ℕ)
    (h0 : 0 ≤ alpha) (h1 : alpha ≤ 1) :
    0 ≤ penalty alpha beta ∧ penalty alpha (List.replicate p 0) = 0 := by
  constructor
  · have hl1 := normL1_nonneg beta
    have hl2 := normL2_nonneg beta
    unfold penalty
    nlinarith
  · unfold penalty
    rw [normL1_replicate_zero, normL2_replicate_zero]
    ring

/-- Witness for C9 at `alpha = 1/2`, `beta = [1, -2]`, `p = 3`. -/
theorem penalty_nonneg_and_zero_at_zero_witness :
    0 ≤ penalty (1/2) [1, -2] ∧ penalty (1/2) (List.replicate 3 0) = 0 :=
  penalty_nonneg_and_zero_at_zero (1/2) [1, -2] 3 (by norm_num) (by norm_num)

/-- C5: the conditional intensity `lmb` agrees with the mean function `qu`
applied to the linear predictor, both for a single design row and, row by
row, for a design matrix. -/
theorem lmb_eq_qu_linear_predictor (beta0 : ℝ) (beta x : List ℝ)
    (X : List (List ℝ)) :
    lmb beta0 beta x = qu (beta0 + dot x beta) ∧
      lmbMat beta0 beta X = X.map (fun row => qu (beta0 + dot row beta)) :=
  ⟨rfl, rfl⟩

/-- C6: `qu` is the softplus with the machine-spacing epsilon added inside
the logarithm: `qu z = log(1 + eps + exp z)` with `eps = np.spacing(1) =
2⁻⁵²`; the argument of the log is strictly positive (never `log 0`), and
`qu` strictly dominates the eps-free softplus `log(1 + exp z)`. -/
theorem qu_eq_eps_softplus (z : ℝ) :
    qu z = Real.log (1 + npSpacing1 + Real.exp z) ∧
      npSpacing1 = 1 / 2 ^ 52 ∧
      0 < 1 + npSpacing1 + Real.exp z ∧
      Real.log (1 + Real.exp z) < qu z := by
  refine ⟨rfl, rfl, lt_trans one_pos (one_lt_qu_arg z), ?_⟩
  apply Real.log_lt_log
  · positivity
  · have := npSpacing1_pos
    linarith

/-- C1 counterexample: at `alpha = 0`, `beta = [2]` the source's `penalty`
returns `0.5 * ‖β‖₂ = 1` (un-squared L2 norm), while the documented
elastic-net formula `(1−α)·½‖β‖₂² + α‖β‖₁` gives `2`. -/
theorem penalty_differs_from_spec_formula :
    penalty 0 [2] = 1 ∧ penalty 0 [2] ≠ penaltySpec 0 [2] := by
  have h2 : normL2 [2] = 2 := by
    unfold normL2
    rw [show ((([2]:List ℝ).map (fun b => b ^ 2)).sum) = 2 ^ 2 by norm_num]
    exact Real.sqrt_sq (by norm_num)
  have h1 : normL1 [2] = 2 := by
    simp [normL1]
  unfold penalty penaltySpec
  rw [h1, h2]
  norm_num

/-- The common log-step of the default regularization path. -/
noncomputable def pathStep : ℝ := (Real.log 0.01 - Real.log 0.5) / 9

/-- Explicit form of `reg_lambda`: ten exponentials of an arithmetic
progression on the log scale from `log 0.5` towards `log 0.01`. -/
lemma reg_lambda_explicit :
    reg_lambda =
      [Real.exp (Real.log 0.5 + 0 * pathStep),
       Real.exp (Real.log 0.5 + 1 * pathStep),
       Real.exp (Real.log 0.5 + 2 * pathStep),
       Real.exp (Real.log 0.5 + 3 * pathStep),
       Real.exp (Real.log 0.5 + 4 * pathStep),
       Real.exp (Real.log 0.5 + 5 * pathStep),
       Real.exp (Real.log 0.5 + 6 * pathStep),
       Real.exp (Real.log 0.5 + 7 * pathStep),
       Real.exp (Real.log 0.5 + 8 * pathStep),
       Real.exp (Real.log 0.5 + 9 * pathStep)] := by
  unfold reg_lambda logspace pathStep
  rw [show List.range 10 = [0,1,2,3,4,5,6,7,8,9] from rfl]
  norm_num [Real.exp_one_rpow]

/-- The log-step is strictly negative. -/
lemma pathStep_neg : pathStep < 0 := by
  have hlog : Real.log 0.01 < Real.log 0.5 :=
    Real.log_lt_log (by norm_num) (by norm_num)
  unfold pathStep
  linarith

/-- C7: the default regularization path `reg_lambda` built by
`np.logspace(log 0.5, log 0.01, 10, base e)` has 10 elements, all strictly
positive, strictly decreasing, log-spaced with a constant consecutive
ratio, running from `0.5` (first) down to `0.01` (last). -/
theorem reg_lambda_log_spaced_decreasing_path :
    reg_lambda.length = 10 ∧
      List.Forall (fun x => 0 < x) reg_lambda ∧
      List.Chain' (fun a b => b < a) reg_lambda ∧
      List.Chain' (fun a b => b = a * Real.exp pathStep) reg_lambda ∧
      reg_lambda.head? = some 0.5 ∧
      reg_lambda.getLast? = some 0.01 := by
  have hstep := pathStep_neg
  rw [reg_lambda_explicit]
  refine ⟨rfl, ?_, ?_, ?_, ?_, ?_⟩
  · simp [List.Forall, Real.exp_pos]
  · simp only [List.chain'_cons, List.chain'_singleton, and_true]
    refine ⟨?_, ?_, ?_, ?_, ?_, ?_, ?_, ?_, ?_⟩ <;>
      exact Real.exp_lt_exp.mpr (by linarith)
  · simp only [List.chain'_cons, List.chain'_singleton, and_true]
    refine ⟨?_, ?_, ?_, ?_, ?_, ?_, ?_, ?_, ?_⟩ <;>
      · rw [← Real.exp_add]
        exact congrArg Real.exp (by ring)
  · rw [show Real.log 0.5 + 0 * pathStep = Real.log 0.5 by ring]
    rw [Real.exp_log (by norm_num)]
    rfl
  · rw [show Real.log 0.5 + 9 * pathStep = Real.log 0.01 by
      unfold pathStep; ring]
    rw [Real.exp_log (by norm_num)]
    rfl

end PyGlmnet
